import Mathlib

/-!
Shallow embedding of the job-session state machine found in
src/secret_store/src/key_server_cluster/jobs/job_session.rs.

Modelling conventions:
* Rust `NodeId` is an opaque identifier; it is modelled as `Nat`.
* `BTreeSet<NodeId>` is modelled as `Finset Nat`; iteration order of a
  `BTreeSet` is ascending, modelled via `Finset.sort`.
* `BTreeMap<NodeId, R>` is modelled as an association list
  `List (Nat × R)` with unique keys (maintained by `mapInsert`).
* `Result<T, Error>` is `Except Error T`.  Executor and Transport are
  records of (pure) fallible functions.
* A Rust panic (`expect` on an absent `active_data`, or a failing
  `debug_assert!` contract check in a safety build) is modelled by the
  operation returning `none`; a normal return is `some`.
* Outbound Transport sends are collected in a `Message` log returned by
  the operation (a message is logged when its send succeeded).
* The word `partial` of the source (e.g. `on_partial_response`) is
  shortened to `Part` in Lean names (e.g. `onPartResponse`).
-/

namespace JobSessions

/-- Error enumeration: the five session-level error kinds used by
job_session.rs, plus `Other` standing for the remaining domain-specific
variants of the shared cluster `Error` type that an Executor or a
Transport may produce. -/
inductive Error where
  | InvalidStateForRequest
  | InvalidMessage
  | InvalidNodeForRequest
  | ConsensusUnreachable
  | NodeDisconnected
  | Other (code : Nat)
deriving DecidableEq

/-- Node identifier (opaque in the source). -/
abbrev NodeId := Nat

/-- Session metadata, borrowed and immutable for the session lifetime. -/
structure SessionMeta where
  id : Nat
  master_node_id : NodeId
  self_node_id : NodeId
  threshold : Nat
deriving DecidableEq

/-- State enumeration of a job session (JobSessionState in the source). -/
inductive JobSessionState where
  | Inactive
  | Active
  | Finished
  | Failed
deriving DecidableEq

/-- Executor capability: the four fallible operations of the JobExecutor
trait.  `preparePartRequest` takes no argument in the source (`&self`
only), so it is a constant `Except` value here. -/
structure JobExecutor (Req Resp JResp : Type) where
  preparePartRequest : Except Error Req
  processPartRequest : Req → Except Error Resp
  checkPartResponse : Resp → Except Error Bool
  computeResponse : List (NodeId × Resp) → Except Error JResp

/-- Transport capability: the two fallible send operations of the
JobTransport trait. -/
structure JobTransport (Req Resp : Type) where
  sendPartRequest : NodeId → Req → Except Error Unit
  sendPartResponse : NodeId → Resp → Except Error Unit

/-- Outbound message recorded when a Transport send succeeds. -/
inductive Message (Req Resp : Type) where
  | request (dest : NodeId) (req : Req)
  | response (dest : NodeId) (resp : Resp)
deriving DecidableEq

/-- Master-side bookkeeping (ActiveJobSessionData in the source). -/
structure ActiveJobSessionData (Resp : Type) where
  requests : Finset NodeId
  rejects : Finset NodeId
  responses : List (NodeId × Resp)
deriving DecidableEq

/-- Session state plus optional master bookkeeping (JobSessionData). -/
structure JobSessionData (Resp : Type) where
  state : JobSessionState
  activeData : Option (ActiveJobSessionData Resp)
deriving DecidableEq

/-- A job session: metadata, capabilities and mutable data. -/
structure JobSession (Req Resp JResp : Type) where
  meta : SessionMeta
  executor : JobExecutor Req Resp JResp
  transport : JobTransport Req Resp
  data : JobSessionData Resp

/-- Membership test of an association list (BTreeMap `contains_key`). -/
def mapContains {Resp : Type} (m : List (NodeId × Resp)) (k : NodeId) : Bool :=
  m.any (fun p => p.1 == k)

/-- Insertion into an association list (BTreeMap `insert`): any existing
binding of the key is replaced. -/
def mapInsert {Resp : Type} (m : List (NodeId × Resp)) (k : NodeId) (v : Resp) :
    List (NodeId × Resp) :=
  (k, v) :: m.filter (fun p => p.1 != k)

/-- Removal from an association list (BTreeMap `remove`). -/
def mapRemove {Resp : Type} (m : List (NodeId × Resp)) (k : NodeId) :
    List (NodeId × Resp) :=
  m.filter (fun p => p.1 != k)

/-- Ascending list of the members of a node set: the iteration order of
a `BTreeSet` (computable insertion sort of the underlying multiset). -/
def sortedNodes (s : Finset NodeId) : List NodeId :=
  Quot.liftOn s.val (fun l => List.insertionSort (· ≤ ·) l) (fun _ _ h =>
    List.eq_of_perm_of_sorted
      ((List.perm_insertionSort _ _).trans ((Quotient.exact (Quot.sound h)).trans
        (List.perm_insertionSort _ _).symm))
      (List.sorted_insertionSort _ _) (List.sorted_insertionSort _ _))

/-- Membership in the iteration list agrees with set membership. -/
theorem mem_sortedNodes (n : NodeId) (s : Finset NodeId) :
    n ∈ sortedNodes s ↔ n ∈ s := by
  rcases s with ⟨m, hm⟩
  induction m using Quot.inductionOn with
  | h l => simp [sortedNodes, (List.perm_insertionSort (· ≤ ·) l).mem_iff]

/-- Iteration over a singleton node set visits just that node. -/
theorem sortedNodes_singleton (a : NodeId) : sortedNodes {a} = [a] := rfl

variable {Req Resp JResp : Type}

/-- Constructor `JobSession::new`: state Inactive, no active data. -/
def JobSession.new (meta : SessionMeta) (ex : JobExecutor Req Resp JResp)
    (tr : JobTransport Req Resp) : JobSession Req Resp JResp :=
  { meta := meta, executor := ex, transport := tr,
    data := { state := .Inactive, activeData := none } }

/-- Accessor `requests()`: master-only (debug_assert modelled as a panic
guard) and unwraps the bookkeeping (`expect`, i.e. panics — `none` —
when absent). -/
def JobSession.requests (s : JobSession Req Resp JResp) : Option (Finset NodeId) :=
  if s.meta.self_node_id = s.meta.master_node_id then
    s.data.activeData.map (fun ad => ad.requests)
  else
    none

/-- Accessor `result()`: master-only; fails with InvalidStateForRequest
unless Finished, else aggregates the accepted responses. -/
def JobSession.result (s : JobSession Req Resp JResp) : Option (Except Error JResp) :=
  if s.meta.self_node_id = s.meta.master_node_id then
    if s.data.state ≠ .Finished then
      some (.error .InvalidStateForRequest)
    else
      s.data.activeData.map (fun ad => s.executor.computeResponse ad.responses)
  else
    none

/-- Rust `check_partial_response(..).unwrap_or(false)`: an Executor
error during validation collapses to `false`. -/
def checkOrFalse (ex : JobExecutor Req Resp JResp) (resp : Resp) : Bool :=
  match ex.checkPartResponse resp with
  | .ok b => b
  | .error _ => false

/-- Handler `on_partial_response` of the source, master only.  Returns
`none` on the `expect` panic (absent bookkeeping), otherwise the outcome
and the updated session. -/
def onPartResponse (s : JobSession Req Resp JResp) (node : NodeId) (resp : Resp) :
    Option (Except Error Unit × JobSession Req Resp JResp) :=
  if s.meta.self_node_id ≠ s.meta.master_node_id then
    some (.error .InvalidMessage, s)
  else if s.data.state ≠ .Active ∧ s.data.state ≠ .Finished then
    some (.error .InvalidStateForRequest, s)
  else
    match s.data.activeData with
    | none => none
    | some ad =>
      if node ∉ ad.requests then
        some (.error .InvalidNodeForRequest, s)
      else
        if checkOrFalse s.executor resp = false then
          let ad2 : ActiveJobSessionData Resp :=
            { requests := ad.requests.erase node,
              rejects := insert node ad.rejects,
              responses := ad.responses }
          if s.meta.threshold + 1 ≤ ad2.requests.card + ad2.responses.length then
            some (.ok (), { s with data := { state := s.data.state, activeData := some ad2 } })
          else
            some (.error .ConsensusUnreachable,
              { s with data := { state := .Failed, activeData := some ad2 } })
        else
          let ad2 : ActiveJobSessionData Resp :=
            { requests := ad.requests.erase node,
              rejects := ad.rejects,
              responses := mapInsert ad.responses node resp }
          if ad2.responses.length < s.meta.threshold + 1 then
            some (.ok (), { s with data := { state := s.data.state, activeData := some ad2 } })
          else
            some (.ok (), { s with data := { state := .Finished, activeData := some ad2 } })

/-- Fan-out loop of `initialize`: walk the node list in ascending order,
sending a prepared request to every node other than self; record whether
self is a member.  An Executor or Transport failure aborts the loop,
keeping the messages already sent. -/
def initLoop (ex : JobExecutor Req Resp JResp) (tr : JobTransport Req Resp)
    (selfId : NodeId) : List NodeId → List (Message Req Resp) × Except Error Bool
  | [] => ([], .ok false)
  | n :: rest =>
    if n = selfId then
      let r := initLoop ex tr selfId rest
      (r.1, r.2.map (fun _ => true))
    else
      match ex.preparePartRequest with
      | .error e => ([], .error e)
      | .ok req =>
        match tr.sendPartRequest n req with
        | .error e => ([], .error e)
        | .ok _ =>
          let r := initLoop ex tr selfId rest
          (.request n req :: r.1, r.2)

/-- Entry point `initialize(nodes)` of the source, master only (the two
`debug_assert!` contract checks are modelled as panic guards).  Creates
the bookkeeping, moves to Active, and processes the self response when
self is a member. -/
def initJob (s : JobSession Req Resp JResp) (nodes : Finset NodeId) :
    Option (Except Error Unit × JobSession Req Resp JResp × List (Message Req Resp)) :=
  if s.meta.self_node_id ≠ s.meta.master_node_id then
    none
  else if nodes.card < s.meta.threshold + 1 then
    none
  else if s.data.state ≠ .Inactive then
    some (.error .InvalidStateForRequest, s, [])
  else
    let r := initLoop s.executor s.transport s.meta.self_node_id (sortedNodes nodes)
    match r.2 with
    | .error e => some (.error e, s, r.1)
    | .ok waitsForSelf =>
      let s1 : JobSession Req Resp JResp :=
        { s with data := { state := .Active,
                           activeData := some { requests := nodes, rejects := ∅, responses := [] } } }
      if waitsForSelf then
        match s1.executor.preparePartRequest with
        | .error e => some (.error e, s1, r.1)
        | .ok req =>
          match s1.executor.processPartRequest req with
          | .error e => some (.error e, s1, r.1)
          | .ok resp =>
            match onPartResponse s1 s1.meta.self_node_id resp with
            | none => none
            | some (r2, s2) => some (r2, s2, r.1)
      else
        some (.ok (), s1, r.1)

/-- Handler `on_partial_request` of the source, slave only.  Never
panics: every path returns an outcome, the possibly-updated session, and
the sent messages. -/
def onPartRequest (s : JobSession Req Resp JResp) (node : NodeId) (req : Req) :
    Except Error Unit × JobSession Req Resp JResp × List (Message Req Resp) :=
  if node ≠ s.meta.master_node_id then
    (.error .InvalidMessage, s, [])
  else if s.meta.self_node_id = s.meta.master_node_id then
    (.error .InvalidMessage, s, [])
  else if s.data.state ≠ .Inactive ∧ s.data.state ≠ .Finished then
    (.error .InvalidStateForRequest, s, [])
  else
    let s1 : JobSession Req Resp JResp :=
      { s with data := { s.data with state := .Finished } }
    match s1.executor.processPartRequest req with
    | .error e => (.error e, s1, [])
    | .ok resp =>
      match s1.transport.sendPartResponse node resp with
      | .error e => (.error e, s1, [])
      | .ok _ => (.ok (), s1, [.response node resp])

/-- Shared tail of the master branch of `on_node_timeout`: after the
timed-out node has been moved into `rejects`, keep the state if quorum
is still reachable, else move to Failed with NodeDisconnected. -/
def timeoutTail (s : JobSession Req Resp JResp) (ad : ActiveJobSessionData Resp) :
    Except Error Unit × JobSession Req Resp JResp :=
  if s.meta.threshold + 1 ≤ ad.requests.card + ad.responses.length then
    (.ok (), { s with data := { state := s.data.state, activeData := some ad } })
  else
    (.error .NodeDisconnected, { s with data := { state := .Failed, activeData := some ad } })

/-- Handler `on_node_timeout` of the source.  Returns `none` on the
`expect` panic of the master branch (absent bookkeeping). -/
def onNodeTimeout (s : JobSession Req Resp JResp) (node : NodeId) :
    Option (Except Error Unit × JobSession Req Resp JResp) :=
  if s.meta.self_node_id ≠ s.meta.master_node_id then
    if node ≠ s.meta.master_node_id then
      some (.ok (), s)
    else
      some (.error .NodeDisconnected, { s with data := { s.data with state := .Failed } })
  else
    match s.data.activeData with
    | none => none
    | some ad =>
      if node ∈ ad.rejects then
        some (.ok (), s)
      else if node ∈ ad.requests then
        some (timeoutTail s
          { requests := ad.requests.erase node,
            rejects := insert node ad.rejects,
            responses := ad.responses })
      else if mapContains ad.responses node then
        some (timeoutTail s
          { requests := ad.requests,
            rejects := insert node ad.rejects,
            responses := mapRemove ad.responses node })
      else
        some (.ok (), s)

/-- Handler `on_session_timeout`: unconditionally Failed, no outcome. -/
def onSessionTimeout (s : JobSession Req Resp JResp) : JobSession Req Resp JResp :=
  { s with data := { s.data with state := .Failed } }

/-- Operations deliverable to a session by the surrounding cluster. -/
inductive Op (Req Resp : Type) where
  | initNodes (nodes : Finset NodeId)
  | partResponse (node : NodeId) (resp : Resp)
  | partRequest (node : NodeId) (req : Req)
  | nodeTimeout (node : NodeId)
  | sessionTimeout

/-- Full effect of one operation: outcome, updated session, sent
messages; `none` models a panic. -/
def applyFull (s : JobSession Req Resp JResp) :
    Op Req Resp → Option (Except Error Unit × JobSession Req Resp JResp × List (Message Req Resp))
  | .initNodes nodes => initJob s nodes
  | .partResponse node resp => (onPartResponse s node resp).map (fun p => (p.1, p.2, []))
  | .partRequest node req => some (onPartRequest s node req)
  | .nodeTimeout node => (onNodeTimeout s node).map (fun p => (p.1, p.2, []))
  | .sessionTimeout => some (.ok (), onSessionTimeout s, [])

/-- Session reached after one operation (discarding outcome and log). -/
def applyOp (s : JobSession Req Resp JResp) (op : Op Req Resp) :
    Option (JobSession Req Resp JResp) :=
  (applyFull s op).map (fun p => p.2.1)

/-- Session reached after a sequence of operations; a panic anywhere
aborts the run. -/
def runOps (s : JobSession Req Resp JResp) :
    List (Op Req Resp) → Option (JobSession Req Resp JResp)
  | [] => some s
  | op :: rest =>
    match applyOp s op with
    | none => none
    | some s1 => runOps s1 rest

/-- Concrete executor used by witnesses and counterexamples; it is the
SquaredSumJobExecutor of the source's test module: request constant 2,
response the square, valid iff even, aggregate the sum. -/
def natExec : JobExecutor Nat Nat Nat :=
  { preparePartRequest := .ok 2
    processPartRequest := fun r => .ok (r * r)
    checkPartResponse := fun r => .ok (r % 2 == 0)
    computeResponse := fun rs => .ok (rs.foldl (fun a p => a + p.2) 0) }

/-- Concrete transport whose sends always succeed (DummyJobTransport of
the source's test module). -/
def okTransport : JobTransport Nat Nat :=
  { sendPartRequest := fun _ _ => .ok ()
    sendPartResponse := fun _ _ => .ok () }

/-- Concrete master session metadata (node 1 is master and self). -/
def masterMeta (t : Nat) : SessionMeta := ⟨0, 1, 1, t⟩

/-- Concrete slave session metadata (master 1, self 2). -/
def slaveMeta (t : Nat) : SessionMeta := ⟨0, 1, 2, t⟩

/-- C10: on a freshly constructed master-node session (state Inactive,
no bookkeeping yet), `requests()` and `on_node_timeout` are not total:
both unwrap the absent master bookkeeping and panic (modelled as
`none`), whatever the node argument. -/
theorem c10_uninit_master_panics (meta : SessionMeta)
    (ex : JobExecutor Req Resp JResp) (tr : JobTransport Req Resp) (node : NodeId)
    (hm : meta.self_node_id = meta.master_node_id) :
    (JobSession.new meta ex tr).requests = none ∧
    onNodeTimeout (JobSession.new meta ex tr) node = none := by
  constructor
  · simp [JobSession.new, JobSession.requests, hm]
  · simp [JobSession.new, onNodeTimeout, hm]

/-- Witness for C10 at the concrete master metadata and node 5. -/
theorem c10_uninit_master_panics_witness :
    (masterMeta 0).self_node_id = (masterMeta 0).master_node_id ∧
    ((JobSession.new (masterMeta 0) natExec okTransport).requests = none ∧
      onNodeTimeout (JobSession.new (masterMeta 0) natExec okTransport) 5 = none) :=
  ⟨rfl, c10_uninit_master_panics (masterMeta 0) natExec okTransport 5 rfl⟩

/-- C3: master session in state Active or Finished, node still in
requests, failing check: the node moves from requests into rejects;
then with `requests.size + responses.size >= threshold + 1` the call
returns success with no state change, otherwise it moves the state to
Failed and returns ConsensusUnreachable. -/
theorem c3_reject_path (s : JobSession Req Resp JResp) (node : NodeId) (resp : Resp)
    (ad : ActiveJobSessionData Resp)
    (hm : s.meta.self_node_id = s.meta.master_node_id)
    (hst : s.data.state = .Active ∨ s.data.state = .Finished)
    (had : s.data.activeData = some ad)
    (hnode : node ∈ ad.requests)
    (hchk : checkOrFalse s.executor resp = false) :
    (s.meta.threshold + 1 ≤ (ad.requests.erase node).card + ad.responses.length →
      onPartResponse s node resp = some (.ok (),
        { s with data := { state := s.data.state
                           activeData := some { requests := ad.requests.erase node
                                                rejects := insert node ad.rejects
                                                responses := ad.responses } } })) ∧
    (¬ s.meta.threshold + 1 ≤ (ad.requests.erase node).card + ad.responses.length →
      onPartResponse s node resp = some (.error .ConsensusUnreachable,
        { s with data := { state := .Failed
                           activeData := some { requests := ad.requests.erase node
                                                rejects := insert node ad.rejects
                                                responses := ad.responses } } })) := by
  have hst' : ¬ (s.data.state ≠ .Active ∧ s.data.state ≠ .Finished) := by
    rcases hst with h | h <;> simp [h]
  refine ⟨fun hq => ?_, fun hq => ?_⟩ <;>
    rw [Finset.card_erase_of_mem hnode] at hq <;>
    simp [onPartResponse, hm, hst', had, hnode, hchk, hq]

/-- Witness for C3: threshold 1, requests {2}, rejecting response 3 from
node 2 makes quorum unreachable. -/
theorem c3_reject_path_witness :
    (let s : JobSession Nat Nat Nat :=
      ⟨masterMeta 1, natExec, okTransport, ⟨.Active, some ⟨{2}, ∅, []⟩⟩⟩
     s.meta.self_node_id = s.meta.master_node_id ∧
     (s.data.state = .Active ∨ s.data.state = .Finished) ∧
     s.data.activeData = some ⟨{2}, ∅, []⟩ ∧
     2 ∈ (⟨{2}, ∅, []⟩ : ActiveJobSessionData Nat).requests ∧
     checkOrFalse s.executor 3 = false ∧
     ((s.meta.threshold + 1 ≤ ((({2} : Finset NodeId)).erase 2).card + ([] : List (NodeId × Nat)).length →
        onPartResponse s 2 3 = some (.ok (),
          { s with data := { state := s.data.state
                             activeData := some { requests := ({2} : Finset NodeId).erase 2
                                                  rejects := insert 2 (∅ : Finset NodeId)
                                                  responses := ([] : List (NodeId × Nat)) } } })) ∧
      (¬ s.meta.threshold + 1 ≤ (({2} : Finset NodeId).erase 2).card + ([] : List (NodeId × Nat)).length →
        onPartResponse s 2 3 = some (.error .ConsensusUnreachable,
          { s with data := { state := .Failed
                             activeData := some { requests := ({2} : Finset NodeId).erase 2
                                                  rejects := insert 2 (∅ : Finset NodeId)
                                                  responses := ([] : List (NodeId × Nat)) } } })))) :=
  ⟨rfl, Or.inl rfl, rfl, by decide, by decide,
    c3_reject_path _ 2 3 ⟨{2}, ∅, []⟩ rfl (Or.inl rfl) rfl (by decide) (by decide)⟩

/-- C5: behaviour of `on_node_timeout`.  Slave: ignored unless the
timed-out node is the master, which fails the session with
NodeDisconnected.  Master (bookkeeping present): idempotent no-op for an
already-rejected node, no-op for a node never requested, otherwise the
node is moved out of `requests`/`responses` (wherever it is) into
`rejects` and the session stays unchanged or moves to Failed with
NodeDisconnected according to the reachability check. -/
theorem c5_node_timeout (s : JobSession Req Resp JResp) (node : NodeId) :
    (s.meta.self_node_id ≠ s.meta.master_node_id →
      (node ≠ s.meta.master_node_id → onNodeTimeout s node = some (.ok (), s)) ∧
      (node = s.meta.master_node_id →
        onNodeTimeout s node = some (.error .NodeDisconnected,
          { s with data := { s.data with state := .Failed } }))) ∧
    (s.meta.self_node_id = s.meta.master_node_id →
      ∀ ad, s.data.activeData = some ad →
        (node ∈ ad.rejects → onNodeTimeout s node = some (.ok (), s)) ∧
        (node ∉ ad.rejects → node ∉ ad.requests → mapContains ad.responses node = false →
          onNodeTimeout s node = some (.ok (), s)) ∧
        (node ∉ ad.rejects → node ∈ ad.requests ∨ mapContains ad.responses node = true →
          ∀ ad2 : ActiveJobSessionData Resp,
            ad2 = { requests := ad.requests.erase node
                    rejects := insert node ad.rejects
                    responses := if node ∈ ad.requests then ad.responses
                                 else mapRemove ad.responses node } →
            (s.meta.threshold + 1 ≤ ad2.requests.card + ad2.responses.length →
              onNodeTimeout s node = some (.ok (),
                { s with data := { state := s.data.state, activeData := some ad2 } })) ∧
            (¬ s.meta.threshold + 1 ≤ ad2.requests.card + ad2.responses.length →
              onNodeTimeout s node = some (.error .NodeDisconnected,
                { s with data := { state := .Failed, activeData := some ad2 } })))) := by
  refine ⟨fun hs => ⟨fun hn => ?_, fun hn => ?_⟩,
          fun hs ad had => ⟨fun hr => ?_, fun hr hq hresp => ?_, fun hr hin ad2 had2 => ?_⟩⟩
  · simp [onNodeTimeout, hs, hn]
  · simp [onNodeTimeout, hs, hn]
  · simp [onNodeTimeout, hs, had, hr]
  · simp [onNodeTimeout, hs, had, hr, hq, hresp]
  · subst had2
    by_cases hreq : node ∈ ad.requests
    · refine ⟨fun hle => ?_, fun hlt => ?_⟩
      · simp only [if_pos hreq] at hle
        rw [Finset.card_erase_of_mem hreq] at hle
        simp [onNodeTimeout, hs, had, hr, hreq, timeoutTail, hle]
      · simp only [if_pos hreq] at hlt
        rw [Finset.card_erase_of_mem hreq] at hlt
        simp [onNodeTimeout, hs, had, hr, hreq, timeoutTail, hlt, Nat.not_le.mp hlt]
    · have hresp : mapContains ad.responses node = true := by
        rcases hin with h | h
        · exact absurd h hreq
        · exact h
      have herase : ad.requests.erase node = ad.requests := Finset.erase_eq_of_not_mem hreq
      refine ⟨fun hle => ?_, fun hlt => ?_⟩
      · simp only [if_neg hreq, herase] at hle
        simp [onNodeTimeout, hs, had, hr, hreq, hresp, timeoutTail, herase, hle]
      · simp only [if_neg hreq, herase] at hlt
        simp [onNodeTimeout, hs, had, hr, hreq, hresp, timeoutTail, herase, hlt, Nat.not_le.mp hlt]

/-- Witness for C5: master with threshold 1, only node 2 outstanding;
its timeout makes quorum unreachable (NodeDisconnected, Failed). -/
theorem c5_node_timeout_witness :
    ((⟨masterMeta 1, natExec, okTransport, ⟨.Active, some ⟨{2}, ∅, []⟩⟩⟩ :
        JobSession Nat Nat Nat).meta.self_node_id =
      (masterMeta 1).master_node_id ∧
     (2 : NodeId) ∉ (∅ : Finset NodeId) ∧
     ¬ (masterMeta 1).threshold + 1 ≤
        (({2} : Finset NodeId).erase 2).card + ([] : List (NodeId × Nat)).length ∧
     onNodeTimeout
        (⟨masterMeta 1, natExec, okTransport, ⟨.Active, some ⟨{2}, ∅, []⟩⟩⟩ :
          JobSession Nat Nat Nat) 2 =
      some (.error .NodeDisconnected,
        ⟨masterMeta 1, natExec, okTransport,
          ⟨.Failed, some ⟨({2} : Finset NodeId).erase 2, insert 2 ∅,
            ([] : List (NodeId × Nat))⟩⟩⟩)) :=
  ⟨rfl, by decide, by decide,
    (((c5_node_timeout
        (⟨masterMeta 1, natExec, okTransport, ⟨.Active, some ⟨{2}, ∅, []⟩⟩⟩ :
          JobSession Nat Nat Nat) 2).2 rfl ⟨{2}, ∅, []⟩ rfl).2.2
      (by decide) (Or.inl (by decide)) _ (by simp)).2 (by decide)⟩

/-- C6: behaviour of `on_partial_request` (slave-side request handler):
InvalidMessage with the session untouched for a non-master sender or
when self is the master; InvalidStateForRequest with the session
untouched in state Active or Failed; otherwise the state becomes
Finished and the processed response is sent back to the sender (so a
slave already in Finished may answer the same master again). -/
theorem c6_part_request (s : JobSession Req Resp JResp) (node : NodeId) (req : Req) :
    (node ≠ s.meta.master_node_id →
      onPartRequest s node req = (.error .InvalidMessage, s, [])) ∧
    (node = s.meta.master_node_id → s.meta.self_node_id = s.meta.master_node_id →
      onPartRequest s node req = (.error .InvalidMessage, s, [])) ∧
    (node = s.meta.master_node_id → s.meta.self_node_id ≠ s.meta.master_node_id →
      (s.data.state = .Active ∨ s.data.state = .Failed) →
      onPartRequest s node req = (.error .InvalidStateForRequest, s, [])) ∧
    (node = s.meta.master_node_id → s.meta.self_node_id ≠ s.meta.master_node_id →
      (s.data.state = .Inactive ∨ s.data.state = .Finished) →
      ∀ resp, s.executor.processPartRequest req = .ok resp →
        s.transport.sendPartResponse node resp = .ok () →
        onPartRequest s node req =
          (.ok (), { s with data := { s.data with state := .Finished } },
            [.response node resp])) := by
  refine ⟨fun hn => ?_, fun hn hm => ?_, fun hn hm hst => ?_,
          fun hn hm hst resp hproc hsend => ?_⟩
  · simp [onPartRequest, hn]
  · simp [onPartRequest, hn, hm]
  · have hst' : s.data.state ≠ .Inactive ∧ s.data.state ≠ .Finished := by
      rcases hst with h | h <;> simp [h]
    simp [onPartRequest, hn, hm, hst']
  · have hst' : ¬ (s.data.state ≠ .Inactive ∧ s.data.state ≠ .Finished) := by
      rcases hst with h | h <;> simp [h]
    subst hn
    simp [onPartRequest, hm, hst', hproc, hsend]

/-- Witness for C6: fresh slave answers master request 2 with response 4
and reaches Finished. -/
theorem c6_part_request_witness :
    ((1 : NodeId) = (slaveMeta 0).master_node_id ∧
     (slaveMeta 0).self_node_id ≠ (slaveMeta 0).master_node_id ∧
     ((JobSession.new (slaveMeta 0) natExec okTransport).data.state = .Inactive ∨
      (JobSession.new (slaveMeta 0) natExec okTransport).data.state = .Finished) ∧
     natExec.processPartRequest 2 = .ok 4 ∧
     okTransport.sendPartResponse 1 4 = .ok () ∧
     onPartRequest (JobSession.new (slaveMeta 0) natExec okTransport) 1 2 =
       (.ok (), { JobSession.new (slaveMeta 0) natExec okTransport with
                    data := { (JobSession.new (slaveMeta 0) natExec okTransport).data with
                                state := .Finished } },
         [.response 1 4])) :=
  ⟨rfl, by decide, Or.inl rfl, rfl, rfl,
    (c6_part_request (JobSession.new (slaveMeta 0) natExec okTransport) 1 2).2.2.2
      rfl (by decide) (Or.inl rfl) 4 rfl rfl⟩

/-- Projection of an `Except` outcome to its success value, used to
state decidable facts about outcomes. -/
def okValue {α : Type} : Except Error α → Option α
  | .ok v => some v
  | .error _ => none

/-- C4 (amended): master session in state Active or Finished, node in
requests, successful check: `(node, response)` is inserted into
responses; below quorum the call returns success with the state left
unchanged (Active stays Active, Finished stays Finished), at quorum the
state becomes Finished and the call returns success. -/
theorem c4_accept_path (s : JobSession Req Resp JResp) (node : NodeId) (resp : Resp)
    (ad : ActiveJobSessionData Resp)
    (hm : s.meta.self_node_id = s.meta.master_node_id)
    (hst : s.data.state = .Active ∨ s.data.state = .Finished)
    (had : s.data.activeData = some ad)
    (hnode : node ∈ ad.requests)
    (hchk : checkOrFalse s.executor resp = true) :
    ((mapInsert ad.responses node resp).length < s.meta.threshold + 1 →
      onPartResponse s node resp = some (.ok (),
        { s with data := { state := s.data.state
                           activeData := some { requests := ad.requests.erase node
                                                rejects := ad.rejects
                                                responses := mapInsert ad.responses node resp } } })) ∧
    (¬ (mapInsert ad.responses node resp).length < s.meta.threshold + 1 →
      onPartResponse s node resp = some (.ok (),
        { s with data := { state := .Finished
                           activeData := some { requests := ad.requests.erase node
                                                rejects := ad.rejects
                                                responses := mapInsert ad.responses node resp } } })) := by
  have hst' : ¬ (s.data.state ≠ .Active ∧ s.data.state ≠ .Finished) := by
    rcases hst with h | h <;> simp [h]
  refine ⟨fun hq => ?_, fun hq => ?_⟩ <;>
    simp [onPartResponse, hm, hst', had, hnode, hchk, hq, Nat.not_lt.mp]

/-- Witness for C4 (amended): threshold 1, first accepted response from
node 2 stays below quorum, state stays Active. -/
theorem c4_accept_path_witness :
    (let s : JobSession Nat Nat Nat :=
      ⟨masterMeta 1, natExec, okTransport, ⟨.Active, some ⟨{2, 3}, ∅, []⟩⟩⟩
     s.meta.self_node_id = s.meta.master_node_id ∧
     (s.data.state = .Active ∨ s.data.state = .Finished) ∧
     s.data.activeData = some ⟨{2, 3}, ∅, []⟩ ∧
     (2 : NodeId) ∈ ({2, 3} : Finset NodeId) ∧
     checkOrFalse s.executor 4 = true ∧
     (mapInsert ([] : List (NodeId × Nat)) 2 4).length < s.meta.threshold + 1 ∧
     onPartResponse s 2 4 = some (.ok (),
        { s with data := { state := s.data.state
                           activeData := some { requests := ({2, 3} : Finset NodeId).erase 2
                                                rejects := (∅ : Finset NodeId)
                                                responses := mapInsert [] 2 4 } } })) :=
  ⟨rfl, Or.inl rfl, rfl, by decide, by decide, by decide,
    (c4_accept_path _ 2 4 ⟨{2, 3}, ∅, []⟩ rfl (Or.inl rfl) rfl (by decide) (by decide)).1
      (by decide)⟩

/-- Run leading to the C4 counterexample: threshold 2, nodes 2..6; nodes
2, 3, 4 answer validly (session Finished), then nodes 2 and 3 time out,
leaving a Finished session with only one accepted response. -/
def c4run : Option (JobSession Nat Nat Nat) :=
  runOps (JobSession.new (masterMeta 2) natExec okTransport)
    [.initNodes {2, 3, 4, 5, 6}, .partResponse 2 4, .partResponse 3 4,
     .partResponse 4 4, .nodeTimeout 2, .nodeTimeout 3]

/-- Counterexample to C4 as stated: in the reachable session `c4run`
the state is Finished, node 5 is still in requests and its response 4
passes the check; after `on_partial_response` the responses map has
size 2 < threshold + 1 = 3 and the call returns success, yet the state
is Finished, not Active as the claim requires. -/
theorem c4_cex :
    c4run.map (fun s => (s.data.state, decide (s.meta.self_node_id = s.meta.master_node_id),
        s.data.activeData.map (fun ad => decide (5 ∈ ad.requests)))) =
      some (JobSessionState.Finished, true, some true) ∧
    c4run.map (fun s => checkOrFalse s.executor 4) = some true ∧
    (c4run.bind (fun s => onPartResponse s 5 4)).map
        (fun p => (okValue p.1, p.2.data.state,
          p.2.data.activeData.map (fun ad => ad.responses.length))) =
      some (some (), JobSessionState.Finished, some 2) ∧
    (masterMeta 2).threshold + 1 = 3 ∧
    (2 < 3 ∧ JobSessionState.Finished ≠ JobSessionState.Active) := by
  refine ⟨by decide, by decide, by decide, by decide, by decide⟩

/-- Session whose executor is replaced by one whose check always
returns an untruthful verdict function `f`. -/
def withCheck (s : JobSession Req Resp JResp) (f : Resp → Except Error Bool) :
    JobSession Req Resp JResp :=
  { s with executor := { s.executor with checkPartResponse := f } }

/-- C8: an Executor error from `check_partial_response` is handled
identically to the check returning false: the outcome and resulting
session data of `on_partial_response` coincide with those of the same
session whose check returns `Ok(false)`, so the Executor's error is
never propagated. -/
theorem c8_check_error_is_false (s : JobSession Req Resp JResp) (node : NodeId)
    (resp : Resp) (e : Error)
    (herr : s.executor.checkPartResponse resp = .error e) :
    (onPartResponse s node resp).map (fun p => (p.1, p.2.data)) =
    (onPartResponse (withCheck s (fun _ => .ok false)) node resp).map
      (fun p => (p.1, p.2.data)) := by
  by_cases hmm : s.meta.self_node_id = s.meta.master_node_id
  · by_cases hstate : s.data.state ≠ .Active ∧ s.data.state ≠ .Finished
    · simp [onPartResponse, withCheck, hmm, hstate]
    · cases had : s.data.activeData with
      | none => simp [onPartResponse, withCheck, hmm, hstate, had]
      | some ad =>
        by_cases hnode : node ∈ ad.requests
        · simp [onPartResponse, withCheck, checkOrFalse, herr, hmm, hstate, had, hnode]
          split <;> rfl
        · simp [onPartResponse, withCheck, hmm, hstate, had, hnode]
  · simp [onPartResponse, withCheck, hmm]

/-- Executor whose validity check always fails with a domain error,
used by the C8 witness. -/
def errCheckExec : JobExecutor Nat Nat Nat :=
  { preparePartRequest := .ok 2
    processPartRequest := fun r => .ok (r * r)
    checkPartResponse := fun _ => .error (.Other 7)
    computeResponse := fun rs => .ok (rs.foldl (fun a p => a + p.2) 0) }

/-- Witness for C8 at a concrete session whose check errors. -/
theorem c8_check_error_is_false_witness :
    (let s : JobSession Nat Nat Nat :=
      ⟨masterMeta 0, errCheckExec, okTransport, ⟨.Active, some ⟨{2}, ∅, []⟩⟩⟩
     s.executor.checkPartResponse 4 = .error (.Other 7) ∧
     (onPartResponse s 2 4).map (fun p => (p.1, p.2.data)) =
     (onPartResponse (withCheck s (fun _ => .ok false)) 2 4).map
       (fun p => (p.1, p.2.data))) :=
  ⟨rfl, c8_check_error_is_false _ 2 4 (.Other 7) rfl⟩

/-- C9: a master session with threshold 0 initialized with the node set
containing only self finishes synchronously: the self partial request is
prepared and processed, the response accepted through the normal
acceptance path, and the call returns success with state Finished and
the self response recorded; no message is sent. -/
theorem c9_single_self_finish (s : JobSession Req Resp JResp) (req : Req) (resp : Resp)
    (hm : s.meta.self_node_id = s.meta.master_node_id)
    (hst : s.data.state = .Inactive)
    (ht : s.meta.threshold = 0)
    (hprep : s.executor.preparePartRequest = .ok req)
    (hproc : s.executor.processPartRequest req = .ok resp)
    (hchk : checkOrFalse s.executor resp = true) :
    initJob s {s.meta.self_node_id} = some (.ok (),
      { s with data := { state := .Finished
                         activeData := some
                           { requests := ({s.meta.self_node_id} : Finset NodeId).erase
                               s.meta.self_node_id
                             rejects := ∅
                             responses := [(s.meta.self_node_id, resp)] } } }, []) := by
  simp [initJob, hm, ht, hst, sortedNodes_singleton, initLoop, hprep, hproc,
    onPartResponse, hchk, mapInsert, Except.map]

/-- Witness for C9 with the concrete squared-sum executor: node 1 alone,
threshold 0, response 4 accepted, session Finished. -/
theorem c9_single_self_finish_witness :
    ((masterMeta 0).self_node_id = (masterMeta 0).master_node_id ∧
     (JobSession.new (masterMeta 0) natExec okTransport).data.state = .Inactive ∧
     (masterMeta 0).threshold = 0 ∧
     natExec.preparePartRequest = .ok 2 ∧
     natExec.processPartRequest 2 = .ok 4 ∧
     checkOrFalse natExec 4 = true ∧
     initJob (JobSession.new (masterMeta 0) natExec okTransport) {(masterMeta 0).self_node_id} =
       some (.ok (),
         { JobSession.new (masterMeta 0) natExec okTransport with
             data := { state := .Finished
                       activeData := some
                         { requests := ({(masterMeta 0).self_node_id} : Finset NodeId).erase
                             (masterMeta 0).self_node_id
                           rejects := ∅
                           responses := [((masterMeta 0).self_node_id, 4)] } } }, [])) :=
  ⟨rfl, rfl, rfl, rfl, rfl, by decide,
    c9_single_self_finish (JobSession.new (masterMeta 0) natExec okTransport) 2 4
      rfl rfl rfl rfl rfl (by decide)⟩

/-- Run leading to the C1 counterexample: threshold 1, nodes {2, 3, 4};
nodes 2 and 3 answer validly (session Finished, quorum 2 reached), then
node 2 times out and its accepted response is discarded. -/
def c1run : Option (JobSession Nat Nat Nat) :=
  runOps (JobSession.new (masterMeta 1) natExec okTransport)
    [.initNodes {2, 3, 4}, .partResponse 2 4, .partResponse 3 4, .nodeTimeout 2]

/-- Counterexample to C1 as stated: the session `c1run` is reachable on
a master node, its state is Finished, yet the responses map holds only
1 < threshold + 1 = 2 accepted responses, and `result()` succeeds,
aggregating over a single response (4 = 2²). -/
theorem c1_cex :
    c1run.map (fun s => (s.data.state, decide (s.meta.self_node_id = s.meta.master_node_id),
        s.data.activeData.map (fun ad => ad.responses.length))) =
      some (JobSessionState.Finished, true, some 1) ∧
    c1run.map (fun s => s.result.map okValue) = some (some (some 4)) ∧
    (masterMeta 1).threshold + 1 = 2 ∧ ¬ 2 ≤ 1 := by
  refine ⟨by decide, by decide, by decide, by decide⟩

/-- Run reaching Finished on a master: threshold 0, only node is self. -/
def c2run : Option (JobSession Nat Nat Nat) :=
  runOps (JobSession.new (masterMeta 0) natExec okTransport) [.initNodes {1}]

/-- Counterexample to C2 as stated: the session `c2run` is in state
Finished, and a subsequent `on_session_timeout` changes the state to
Failed — Finished is left by an operation, so it is not terminal. -/
theorem c2_cex :
    c2run.map (fun s => s.data.state) = some JobSessionState.Finished ∧
    (c2run.bind (fun s => runOps s [.sessionTimeout])).map (fun s => s.data.state) =
      some JobSessionState.Failed ∧
    JobSessionState.Failed ≠ JobSessionState.Finished := by
  refine ⟨by decide, by decide, by decide⟩

/-- Symbolic execution of `on_partial_response`: exhaustive case list of
outcome, updated session and path conditions. -/
theorem onPartResponse_spec (s : JobSession Req Resp JResp) (node : NodeId) (resp : Resp)
    (r : Except Error Unit) (s' : JobSession Req Resp JResp)
    (h : onPartResponse s node resp = some (r, s')) :
    (r = .error .InvalidMessage ∧ s' = s ∧ s.meta.self_node_id ≠ s.meta.master_node_id) ∨
    (r = .error .InvalidStateForRequest ∧ s' = s ∧
      s.data.state ≠ .Active ∧ s.data.state ≠ .Finished) ∨
    (∃ ad, s.data.activeData = some ad ∧ s.meta.self_node_id = s.meta.master_node_id ∧
      (s.data.state = .Active ∨ s.data.state = .Finished) ∧
      ((r = .error .InvalidNodeForRequest ∧ s' = s ∧ node ∉ ad.requests) ∨
       (node ∈ ad.requests ∧ checkOrFalse s.executor resp = false ∧
         ((s.meta.threshold + 1 ≤ (ad.requests.erase node).card + ad.responses.length ∧
            r = .ok () ∧
            s' = { s with data := ⟨s.data.state,
              some ⟨ad.requests.erase node, insert node ad.rejects, ad.responses⟩⟩ }) ∨
          (¬ s.meta.threshold + 1 ≤ (ad.requests.erase node).card + ad.responses.length ∧
            r = .error .ConsensusUnreachable ∧
            s' = { s with data := ⟨.Failed,
              some ⟨ad.requests.erase node, insert node ad.rejects, ad.responses⟩⟩ }))) ∨
       (node ∈ ad.requests ∧ checkOrFalse s.executor resp = true ∧
         (((mapInsert ad.responses node resp).length < s.meta.threshold + 1 ∧
            r = .ok () ∧
            s' = { s with data := ⟨s.data.state,
              some ⟨ad.requests.erase node, ad.rejects, mapInsert ad.responses node resp⟩⟩ }) ∨
          (¬ (mapInsert ad.responses node resp).length < s.meta.threshold + 1 ∧
            r = .ok () ∧
            s' = { s with data := ⟨.Finished,
              some ⟨ad.requests.erase node, ad.rejects, mapInsert ad.responses node resp⟩⟩ }))))) := by
  simp only [onPartResponse] at h
  by_cases h1 : s.meta.self_node_id ≠ s.meta.master_node_id
  · rw [if_pos h1] at h
    simp only [Option.some.injEq, Prod.mk.injEq] at h
    exact Or.inl ⟨h.1.symm, h.2.symm, h1⟩
  · rw [if_neg h1] at h
    push_neg at h1
    by_cases h2 : s.data.state ≠ .Active ∧ s.data.state ≠ .Finished
    · rw [if_pos h2] at h
      simp only [Option.some.injEq, Prod.mk.injEq] at h
      exact Or.inr (Or.inl ⟨h.1.symm, h.2.symm, h2⟩)
    · rw [if_neg h2] at h
      have hst : s.data.state = .Active ∨ s.data.state = .Finished := by
        by_cases ha : s.data.state = .Active
        · exact Or.inl ha
        · refine Or.inr ?_
          by_contra hf
          exact h2 ⟨ha, hf⟩
      cases had : s.data.activeData with
      | none => rw [had] at h; exact absurd h (by simp)
      | some ad =>
        rw [had] at h
        dsimp only at h
        refine Or.inr (Or.inr ⟨ad, rfl, h1, hst, ?_⟩)
        by_cases h3 : node ∉ ad.requests
        · rw [if_pos h3] at h
          simp only [Option.some.injEq, Prod.mk.injEq] at h
          exact Or.inl ⟨h.1.symm, h.2.symm, h3⟩
        · rw [if_neg h3] at h
          push_neg at h3
          by_cases h4 : checkOrFalse s.executor resp = false
          · rw [if_pos h4] at h
            refine Or.inr (Or.inl ⟨h3, h4, ?_⟩)
            by_cases h5 : s.meta.threshold + 1 ≤ (ad.requests.erase node).card + ad.responses.length
            · rw [if_pos h5] at h
              simp only [Option.some.injEq, Prod.mk.injEq] at h
              exact Or.inl ⟨h5, h.1.symm, h.2.symm⟩
            · rw [if_neg h5] at h
              simp only [Option.some.injEq, Prod.mk.injEq] at h
              exact Or.inr ⟨h5, h.1.symm, h.2.symm⟩
          · rw [if_neg h4] at h
            have h4' : checkOrFalse s.executor resp = true := by
              cases hcv : checkOrFalse s.executor resp
              · exact absurd hcv h4
              · rfl
            refine Or.inr (Or.inr ⟨h3, h4', ?_⟩)
            by_cases h5 : (mapInsert ad.responses node resp).length < s.meta.threshold + 1
            · rw [if_pos h5] at h
              simp only [Option.some.injEq, Prod.mk.injEq] at h
              exact Or.inl ⟨h5, h.1.symm, h.2.symm⟩
            · rw [if_neg h5] at h
              simp only [Option.some.injEq, Prod.mk.injEq] at h
              exact Or.inr ⟨h5, h.1.symm, h.2.symm⟩

/-- Symbolic execution of `on_node_timeout`: exhaustive case list of
outcome, updated session and path conditions. -/
theorem onNodeTimeout_spec (s : JobSession Req Resp JResp) (node : NodeId)
    (r : Except Error Unit) (s' : JobSession Req Resp JResp)
    (h : onNodeTimeout s node = some (r, s')) :
    (s.meta.self_node_id ≠ s.meta.master_node_id ∧
      ((node ≠ s.meta.master_node_id ∧ r = .ok () ∧ s' = s) ∨
       (node = s.meta.master_node_id ∧ r = .error .NodeDisconnected ∧
         s' = { s with data := ⟨.Failed, s.data.activeData⟩ }))) ∨
    (s.meta.self_node_id = s.meta.master_node_id ∧
      ∃ ad, s.data.activeData = some ad ∧
        ((node ∈ ad.rejects ∧ r = .ok () ∧ s' = s) ∨
         (node ∉ ad.rejects ∧ node ∉ ad.requests ∧ mapContains ad.responses node = false ∧
           r = .ok () ∧ s' = s) ∨
         (node ∉ ad.rejects ∧ (node ∈ ad.requests ∨ mapContains ad.responses node = true) ∧
           ∃ ad2 : ActiveJobSessionData Resp,
             ad2 = (if node ∈ ad.requests then
                      ⟨ad.requests.erase node, insert node ad.rejects, ad.responses⟩
                    else ⟨ad.requests, insert node ad.rejects, mapRemove ad.responses node⟩) ∧
             ((s.meta.threshold + 1 ≤ ad2.requests.card + ad2.responses.length ∧ r = .ok () ∧
                s' = { s with data := ⟨s.data.state, some ad2⟩ }) ∨
              (¬ s.meta.threshold + 1 ≤ ad2.requests.card + ad2.responses.length ∧
                r = .error .NodeDisconnected ∧
                s' = { s with data := ⟨.Failed, some ad2⟩ }))))) := by
  simp only [onNodeTimeout] at h
  by_cases h1 : s.meta.self_node_id ≠ s.meta.master_node_id
  · rw [if_pos h1] at h
    refine Or.inl ⟨h1, ?_⟩
    by_cases hn : node ≠ s.meta.master_node_id
    · rw [if_pos hn] at h
      simp only [Option.some.injEq, Prod.mk.injEq] at h
      exact Or.inl ⟨hn, h.1.symm, h.2.symm⟩
    · rw [if_neg hn] at h
      push_neg at hn
      simp only [Option.some.injEq, Prod.mk.injEq] at h
      exact Or.inr ⟨hn, h.1.symm, h.2.symm⟩
  · rw [if_neg h1] at h
    push_neg at h1
    cases had : s.data.activeData with
    | none => rw [had] at h; exact absurd h (by simp)
    | some ad =>
      rw [had] at h
      dsimp only at h
      refine Or.inr ⟨h1, ad, rfl, ?_⟩
      by_cases h2 : node ∈ ad.rejects
      · rw [if_pos h2] at h
        simp only [Option.some.injEq, Prod.mk.injEq] at h
        exact Or.inl ⟨h2, h.1.symm, h.2.symm⟩
      · rw [if_neg h2] at h
        by_cases h3 : node ∈ ad.requests
        · rw [if_pos h3] at h
          simp only [timeoutTail, Option.some.injEq] at h
          refine Or.inr (Or.inr ⟨h2, Or.inl h3, _, (if_pos h3).symm, ?_⟩)
          by_cases h4 : s.meta.threshold + 1 ≤
              (ad.requests.erase node).card + ad.responses.length
          · rw [if_pos h4] at h
            simp only [Prod.mk.injEq] at h
            exact Or.inl ⟨h4, h.1.symm, h.2.symm⟩
          · rw [if_neg h4] at h
            simp only [Prod.mk.injEq] at h
            exact Or.inr ⟨h4, h.1.symm, h.2.symm⟩
        · rw [if_neg h3] at h
          by_cases h4 : mapContains ad.responses node = true
          · rw [if_pos h4] at h
            simp only [timeoutTail, Option.some.injEq] at h
            refine Or.inr (Or.inr ⟨h2, Or.inr h4, _, (if_neg h3).symm, ?_⟩)
            by_cases h5 : s.meta.threshold + 1 ≤
                ad.requests.card + (mapRemove ad.responses node).length
            · rw [if_pos h5] at h
              simp only [Prod.mk.injEq] at h
              exact Or.inl ⟨h5, h.1.symm, h.2.symm⟩
            · rw [if_neg h5] at h
              simp only [Prod.mk.injEq] at h
              exact Or.inr ⟨h5, h.1.symm, h.2.symm⟩
          · rw [if_neg h4] at h
            simp only [Option.some.injEq, Prod.mk.injEq] at h
            exact Or.inr (Or.inl ⟨h2, h3, Bool.not_eq_true _ ▸ h4, h.1.symm, h.2.symm⟩)

/-- Symbolic execution of `on_partial_request`: exhaustive case list of
outcome, updated session, sent messages and path conditions. -/
theorem onPartRequest_spec (s : JobSession Req Resp JResp) (node : NodeId) (req : Req)
    (r : Except Error Unit) (s' : JobSession Req Resp JResp)
    (log : List (Message Req Resp))
    (h : onPartRequest s node req = (r, s', log)) :
    (node ≠ s.meta.master_node_id ∧ r = .error .InvalidMessage ∧ s' = s ∧ log = []) ∨
    (node = s.meta.master_node_id ∧ s.meta.self_node_id = s.meta.master_node_id ∧
      r = .error .InvalidMessage ∧ s' = s ∧ log = []) ∨
    (node = s.meta.master_node_id ∧ s.meta.self_node_id ≠ s.meta.master_node_id ∧
      s.data.state ≠ .Inactive ∧ s.data.state ≠ .Finished ∧
      r = .error .InvalidStateForRequest ∧ s' = s ∧ log = []) ∨
    (node = s.meta.master_node_id ∧ s.meta.self_node_id ≠ s.meta.master_node_id ∧
      (s.data.state = .Inactive ∨ s.data.state = .Finished) ∧
      s' = { s with data := ⟨.Finished, s.data.activeData⟩ } ∧
      ((∃ e, s.executor.processPartRequest req = .error e ∧ r = .error e ∧ log = []) ∨
       (∃ resp, s.executor.processPartRequest req = .ok resp ∧
         ((∃ e, s.transport.sendPartResponse node resp = .error e ∧ r = .error e ∧ log = []) ∨
          (s.transport.sendPartResponse node resp = .ok () ∧ r = .ok () ∧
            log = [.response node resp]))))) := by
  simp only [onPartRequest] at h
  by_cases h1 : node ≠ s.meta.master_node_id
  · rw [if_pos h1] at h
    simp only [Prod.mk.injEq] at h
    exact Or.inl ⟨h1, h.1.symm, h.2.1.symm, h.2.2.symm⟩
  · rw [if_neg h1] at h
    push_neg at h1
    by_cases h2 : s.meta.self_node_id = s.meta.master_node_id
    · rw [if_pos h2] at h
      simp only [Prod.mk.injEq] at h
      exact Or.inr (Or.inl ⟨h1, h2, h.1.symm, h.2.1.symm, h.2.2.symm⟩)
    · rw [if_neg h2] at h
      by_cases h3 : s.data.state ≠ .Inactive ∧ s.data.state ≠ .Finished
      · rw [if_pos h3] at h
        simp only [Prod.mk.injEq] at h
        exact Or.inr (Or.inr (Or.inl ⟨h1, h2, h3.1, h3.2, h.1.symm, h.2.1.symm, h.2.2.symm⟩))
      · rw [if_neg h3] at h
        have hst : s.data.state = .Inactive ∨ s.data.state = .Finished := by
          by_cases ha : s.data.state = .Inactive
          · exact Or.inl ha
          · refine Or.inr ?_
            by_contra hf
            exact h3 ⟨ha, hf⟩
        refine Or.inr (Or.inr (Or.inr ⟨h1, h2, hst, ?_⟩))
        cases hproc : s.executor.processPartRequest req with
        | error e =>
          rw [hproc] at h
          simp only [Prod.mk.injEq] at h
          exact ⟨h.2.1.symm, Or.inl ⟨e, rfl, h.1.symm, h.2.2.symm⟩⟩
        | ok resp =>
          rw [hproc] at h
          dsimp only at h
          cases hsend : s.transport.sendPartResponse node resp with
          | error e =>
            rw [hsend] at h
            simp only [Prod.mk.injEq] at h
            exact ⟨h.2.1.symm, Or.inr ⟨resp, rfl, Or.inl ⟨e, hsend, h.1.symm, h.2.2.symm⟩⟩⟩
          | ok u =>
            rw [hsend] at h
            simp only [Prod.mk.injEq] at h
            exact ⟨h.2.1.symm, Or.inr ⟨resp, rfl, Or.inr ⟨by rw [hsend], h.1.symm, h.2.2.symm⟩⟩⟩

/-- An error result of the fan-out loop comes from preparing a request
or from a Transport send. -/
theorem initLoop_error (ex : JobExecutor Req Resp JResp) (tr : JobTransport Req Resp)
    (selfId : NodeId) :
    ∀ (l : List NodeId) (log : List (Message Req Resp)) (e : Error),
      initLoop ex tr selfId l = (log, .error e) →
      ex.preparePartRequest = .error e ∨
      ∃ n req, ex.preparePartRequest = .ok req ∧ tr.sendPartRequest n req = .error e := by
  intro l
  induction l with
  | nil => intro log e h; simp [initLoop] at h
  | cons n rest ih =>
    intro log e h
    simp only [initLoop] at h
    by_cases hn : n = selfId
    · rw [if_pos hn] at h
      cases hrec : initLoop ex tr selfId rest with
      | mk rlog rres =>
        rw [hrec] at h
        cases rres with
        | error e2 =>
          simp only [Except.map, Prod.mk.injEq, Except.error.injEq] at h
          exact ih rlog e (by rw [hrec, h.2])
        | ok b => simp [Except.map] at h
    · rw [if_neg hn] at h
      cases hprep : ex.preparePartRequest with
      | error e2 =>
        rw [hprep] at h
        simp only [Prod.mk.injEq, Except.error.injEq] at h
        exact Or.inl (by rw [h.2])
      | ok req =>
        rw [← hprep]
        rw [hprep] at h
        dsimp only at h
        cases hsend : tr.sendPartRequest n req with
        | error e2 =>
          rw [hsend] at h
          simp only [Prod.mk.injEq, Except.error.injEq] at h
          exact Or.inr ⟨n, req, hprep, h.2 ▸ hsend⟩
        | ok u =>
          rw [hsend] at h
          dsimp only at h
          cases hrec : initLoop ex tr selfId rest with
          | mk rlog rres =>
            rw [hrec] at h
            cases rres with
            | error e2 =>
              simp only [Prod.mk.injEq, Except.error.injEq] at h
              exact ih rlog e (by rw [hrec, h.2])
            | ok b => simp at h

/-- The fan-out loop reports that self is awaited only when self is a
member of the visited node list. -/
theorem initLoop_ok_true (ex : JobExecutor Req Resp JResp) (tr : JobTransport Req Resp)
    (selfId : NodeId) :
    ∀ (l : List NodeId) (log : List (Message Req Resp)),
      initLoop ex tr selfId l = (log, .ok true) → selfId ∈ l := by
  intro l
  induction l with
  | nil => intro log h; simp [initLoop] at h
  | cons n rest ih =>
    intro log h
    simp only [initLoop] at h
    by_cases hn : n = selfId
    · rw [hn]; exact List.mem_cons_self _ _
    · rw [if_neg hn] at h
      cases hprep : ex.preparePartRequest with
      | error e2 => rw [hprep] at h; simp at h
      | ok req =>
        rw [hprep] at h
        dsimp only at h
        cases hsend : tr.sendPartRequest n req with
        | error e2 => rw [hsend] at h; simp at h
        | ok u =>
          rw [hsend] at h
          dsimp only at h
          cases hrec : initLoop ex tr selfId rest with
          | mk rlog rres =>
            rw [hrec] at h
            simp only [Prod.mk.injEq] at h
            exact List.mem_cons_of_mem _ (ih rlog (by rw [hrec, h.2]))

/-- Symbolic execution of `initialize`: guard facts and exhaustive case
list of outcome and updated session. -/
theorem initJob_spec (s : JobSession Req Resp JResp) (nodes : Finset NodeId)
    (r : Except Error Unit) (s' : JobSession Req Resp JResp)
    (log : List (Message Req Resp))
    (h : initJob s nodes = some (r, s', log)) :
    s.meta.self_node_id = s.meta.master_node_id ∧
    s.meta.threshold + 1 ≤ nodes.card ∧
    ((s.data.state ≠ .Inactive ∧ r = .error .InvalidStateForRequest ∧ s' = s ∧ log = []) ∨
     (s.data.state = .Inactive ∧
       ((∃ e, r = .error e ∧ s' = s ∧
           (initLoop s.executor s.transport s.meta.self_node_id (sortedNodes nodes)).2 =
             .error e) ∨
        ((s' = { s with data := ⟨.Active, some ⟨nodes, ∅, []⟩⟩ } ∧
           (r = .ok () ∨
            (∃ e, r = .error e ∧
              (s.executor.preparePartRequest = .error e ∨
               ∃ req, s.executor.preparePartRequest = .ok req ∧
                 s.executor.processPartRequest req = .error e)))) ∨
         (∃ resp, s.meta.self_node_id ∈ nodes ∧
           onPartResponse ({ s with data := ⟨.Active, some ⟨nodes, ∅, []⟩⟩ })
             s.meta.self_node_id resp = some (r, s')))))) := by
  simp only [initJob] at h
  by_cases h1 : s.meta.self_node_id ≠ s.meta.master_node_id
  · rw [if_pos h1] at h; exact absurd h (by simp)
  · rw [if_neg h1] at h
    push_neg at h1
    by_cases h2 : nodes.card < s.meta.threshold + 1
    · rw [if_pos h2] at h; exact absurd h (by simp)
    · rw [if_neg h2] at h
      refine ⟨h1, Nat.not_lt.mp h2, ?_⟩
      by_cases h3 : s.data.state ≠ .Inactive
      · rw [if_pos h3] at h
        simp only [Option.some.injEq, Prod.mk.injEq] at h
        exact Or.inl ⟨h3, h.1.symm, h.2.1.symm, h.2.2.symm⟩
      · rw [if_neg h3] at h
        push_neg at h3
        refine Or.inr ⟨h3, ?_⟩
        cases hloop : initLoop s.executor s.transport s.meta.self_node_id
            (sortedNodes nodes) with
        | mk llog lres =>
          rw [hloop] at h
          cases lres with
          | error e =>
            dsimp only at h
            simp only [Option.some.injEq, Prod.mk.injEq] at h
            exact Or.inl ⟨e, h.1.symm, h.2.1.symm, rfl⟩
          | ok waits =>
            dsimp only at h
            cases waits with
            | false =>
              rw [if_neg (by simp)] at h
              simp only [Option.some.injEq, Prod.mk.injEq] at h
              exact Or.inr (Or.inl ⟨h.2.1.symm, Or.inl h.1.symm⟩)
            | true =>
              rw [if_pos rfl] at h
              cases hprep : s.executor.preparePartRequest with
              | error e =>
                rw [hprep] at h
                simp only [Option.some.injEq, Prod.mk.injEq] at h
                exact Or.inr (Or.inl ⟨h.2.1.symm,
                  Or.inr ⟨e, h.1.symm, Or.inl rfl⟩⟩)
              | ok req =>
                rw [hprep] at h
                dsimp only at h
                cases hproc : s.executor.processPartRequest req with
                | error e =>
                  rw [hproc] at h
                  simp only [Option.some.injEq, Prod.mk.injEq] at h
                  exact Or.inr (Or.inl ⟨h.2.1.symm,
                    Or.inr ⟨e, h.1.symm, Or.inr ⟨req, rfl, hproc⟩⟩⟩)
                | ok resp =>
                  rw [hproc] at h
                  dsimp only at h
                  cases hinner : onPartResponse
                      ({ s with data := ⟨.Active, some ⟨nodes, ∅, []⟩⟩ })
                      s.meta.self_node_id resp with
                  | none => rw [hinner] at h; exact absurd h (by simp)
                  | some p =>
                    rw [hinner] at h
                    dsimp only at h
                    simp only [Option.some.injEq, Prod.mk.injEq] at h
                    have hmem : s.meta.self_node_id ∈ nodes := by
                      rw [← mem_sortedNodes]
                      exact initLoop_ok_true s.executor s.transport
                        s.meta.self_node_id (sortedNodes nodes) llog hloop
                    refine Or.inr (Or.inr ⟨resp, hmem, ?_⟩)
                    rw [← h.1, ← h.2.1]
                    exact hinner

/-- C2 (amended): Failed is terminal — no operation leaves it; Finished
is terminal only up to failure: every operation keeps the state in
{Finished, Failed} (on_session_timeout always moves Finished to Failed,
and a quorum-breaking response or timeout may as well), and no
operation ever returns a Finished or Failed session to Inactive or
Active. -/
theorem c2_terminal_amended (s : JobSession Req Resp JResp) (op : Op Req Resp)
    (s' : JobSession Req Resp JResp) (h : applyOp s op = some s') :
    (s.data.state = .Failed → s'.data.state = .Failed) ∧
    ((s.data.state = .Finished ∨ s.data.state = .Failed) →
      (s'.data.state = .Finished ∨ s'.data.state = .Failed)) := by
  cases op with
  | initNodes nodes =>
    simp only [applyOp, applyFull, Option.map_eq_some'] at h
    obtain ⟨⟨r, s1, log⟩, hfull, hps⟩ := h
    subst hps
    obtain ⟨hm, hc, hcases⟩ := initJob_spec _ _ _ _ _ hfull
    rcases hcases with ⟨hni, _, rfl, _⟩ | ⟨hin, _⟩
    · exact ⟨fun hf => hf, fun ht => ht⟩
    · constructor
      · intro hf; rw [hin] at hf; exact absurd hf (by simp)
      · intro ht; rcases ht with ht | ht <;> rw [hin] at ht <;> exact absurd ht (by simp)
  | partResponse node resp =>
    simp only [applyOp, applyFull, Option.map_map, Option.map_eq_some'] at h
    obtain ⟨⟨r, s1⟩, hp, hps⟩ := h
    simp only [Function.comp] at hps
    subst hps
    rcases onPartResponse_spec _ _ _ _ _ hp with
      ⟨_, rfl, _⟩ | ⟨_, rfl, _, _⟩ | ⟨ad, had, hm, hst, hcase⟩
    · exact ⟨fun hf => hf, fun ht => ht⟩
    · exact ⟨fun hf => hf, fun ht => ht⟩
    · have hnotfail : s.data.state ≠ .Failed := by
        rcases hst with h' | h' <;> rw [h'] <;> simp
      rcases hcase with ⟨_, rfl, _⟩ | ⟨_, _, ⟨_, _, rfl⟩ | ⟨_, _, rfl⟩⟩ |
        ⟨_, _, ⟨_, _, rfl⟩ | ⟨_, _, rfl⟩⟩
      · exact ⟨fun hf => hf, fun ht => ht⟩
      · exact ⟨fun hf => hf, fun ht => ht⟩
      · exact ⟨fun _ => rfl, fun _ => Or.inr rfl⟩
      · exact ⟨fun hf => hf, fun ht => ht⟩
      · exact ⟨fun hf => absurd hf hnotfail, fun _ => Or.inl rfl⟩
  | partRequest node req =>
    simp only [applyOp, applyFull, Option.map_some'] at h
    cases hfull : onPartRequest s node req with
    | mk r rest =>
      cases rest with
      | mk s1 log =>
        rw [hfull] at h
        simp only [Option.some.injEq] at h
        subst h
        rcases onPartRequest_spec _ _ _ _ _ _ hfull with
          ⟨_, _, rfl, _⟩ | ⟨_, _, _, rfl, _⟩ | ⟨_, _, _, _, _, rfl, _⟩ |
          ⟨_, _, hst, rfl, _⟩
        · exact ⟨fun hf => hf, fun ht => ht⟩
        · exact ⟨fun hf => hf, fun ht => ht⟩
        · exact ⟨fun hf => hf, fun ht => ht⟩
        · constructor
          · intro hf
            rcases hst with h' | h' <;> rw [h'] at hf <;> exact absurd hf (by simp)
          · exact fun _ => Or.inl rfl
  | nodeTimeout node =>
    simp only [applyOp, applyFull, Option.map_map, Option.map_eq_some'] at h
    obtain ⟨⟨r, s1⟩, hp, hps⟩ := h
    simp only [Function.comp] at hps
    subst hps
    rcases onNodeTimeout_spec _ _ _ _ hp with
      ⟨_, ⟨_, _, rfl⟩ | ⟨_, _, rfl⟩⟩ |
      ⟨_, ad, had, ⟨_, _, rfl⟩ | ⟨_, _, _, _, rfl⟩ | ⟨_, _, ad2, had2, hout⟩⟩
    · exact ⟨fun hf => hf, fun ht => ht⟩
    · exact ⟨fun _ => rfl, fun _ => Or.inr rfl⟩
    · exact ⟨fun hf => hf, fun ht => ht⟩
    · exact ⟨fun hf => hf, fun ht => ht⟩
    · rcases hout with ⟨_, _, rfl⟩ | ⟨_, _, rfl⟩
      · exact ⟨fun hf => hf, fun ht => ht⟩
      · exact ⟨fun _ => rfl, fun _ => Or.inr rfl⟩
  | sessionTimeout =>
    simp only [applyOp, applyFull, Option.map_some', Option.some.injEq] at h
    subst h
    exact ⟨fun _ => rfl, fun _ => Or.inr rfl⟩

/-- Witness for C2 (amended): a Failed slave session stays Failed under
a further session timeout. -/
theorem c2_terminal_amended_witness :
    (applyOp (⟨slaveMeta 0, natExec, okTransport, ⟨.Failed, none⟩⟩ : JobSession Nat Nat Nat)
        .sessionTimeout =
      some (onSessionTimeout ⟨slaveMeta 0, natExec, okTransport, ⟨.Failed, none⟩⟩) ∧
     (((⟨slaveMeta 0, natExec, okTransport, ⟨.Failed, none⟩⟩ :
          JobSession Nat Nat Nat).data.state = .Failed →
        (onSessionTimeout (⟨slaveMeta 0, natExec, okTransport, ⟨.Failed, none⟩⟩ :
          JobSession Nat Nat Nat)).data.state = .Failed) ∧
      (((⟨slaveMeta 0, natExec, okTransport, ⟨.Failed, none⟩⟩ :
           JobSession Nat Nat Nat).data.state = .Finished ∨
        (⟨slaveMeta 0, natExec, okTransport, ⟨.Failed, none⟩⟩ :
           JobSession Nat Nat Nat).data.state = .Failed) →
        ((onSessionTimeout (⟨slaveMeta 0, natExec, okTransport, ⟨.Failed, none⟩⟩ :
            JobSession Nat Nat Nat)).data.state = .Finished ∨
         (onSessionTimeout (⟨slaveMeta 0, natExec, okTransport, ⟨.Failed, none⟩⟩ :
            JobSession Nat Nat Nat)).data.state = .Failed)))) :=
  ⟨rfl, c2_terminal_amended ⟨slaveMeta 0, natExec, okTransport, ⟨.Failed, none⟩⟩
    .sessionTimeout _ rfl⟩

/-- Errors of the session's own validation checks (bad role, bad state,
unknown node). -/
def isValidation : Error → Bool
  | .InvalidStateForRequest => true
  | .InvalidMessage => true
  | .InvalidNodeForRequest => true
  | _ => false

/-- An Executor whose own failures are domain errors, never one of the
session's validation error kinds. -/
def ExecClean (ex : JobExecutor Req Resp JResp) : Prop :=
  (∀ e, ex.preparePartRequest = .error e → isValidation e = false) ∧
  (∀ req e, ex.processPartRequest req = .error e → isValidation e = false)

/-- A Transport whose own failures are domain errors, never one of the
session's validation error kinds. -/
def TransClean (tr : JobTransport Req Resp) : Prop :=
  (∀ n req e, tr.sendPartRequest n req = .error e → isValidation e = false) ∧
  (∀ n resp e, tr.sendPartResponse n resp = .error e → isValidation e = false)

/-- C7: whenever an operation fails with one of the validation errors
InvalidStateForRequest, InvalidMessage or InvalidNodeForRequest (and
the injected capabilities do not themselves produce those kinds), the
session is returned exactly unchanged and nothing was sent. -/
theorem c7_validation_untouched (s : JobSession Req Resp JResp) (op : Op Req Resp)
    (r : Except Error Unit) (s' : JobSession Req Resp JResp)
    (log : List (Message Req Resp)) (e : Error)
    (hex : ExecClean s.executor) (htr : TransClean s.transport)
    (h : applyFull s op = some (r, s', log)) (hr : r = .error e)
    (hval : isValidation e = true) :
    s' = s ∧ log = [] := by
  cases op with
  | initNodes nodes =>
    simp only [applyFull] at h
    obtain ⟨hm, hc, hcases⟩ := initJob_spec _ _ _ _ _ h
    rcases hcases with ⟨_, _, rfl, rfl⟩ | ⟨hin, hsub⟩
    · exact ⟨rfl, rfl⟩
    · exfalso
      rcases hsub with ⟨e', hre, hs, hloop2⟩ |
        ⟨⟨hs, hok | ⟨e', hre, hsrc⟩⟩ | ⟨resp, hmem, hinner⟩⟩
      · rw [hr] at hre
        injection hre with he
        subst he
        cases hpair : initLoop s.executor s.transport s.meta.self_node_id
            (sortedNodes nodes) with
        | mk llog lres =>
          rw [hpair] at hloop2
          dsimp only at hloop2
          subst hloop2
          rcases initLoop_error s.executor s.transport s.meta.self_node_id
              (sortedNodes nodes) llog e hpair with hp | ⟨n, req, _, hsend⟩
          · rw [hex.1 e hp] at hval; exact absurd hval (by simp)
          · rw [htr.1 n req e hsend] at hval; exact absurd hval (by simp)
      · rw [hr] at hok; exact absurd hok (by simp)
      · rw [hr] at hre
        injection hre with he
        subst he
        rcases hsrc with hp | ⟨req, _, hproc⟩
        · rw [hex.1 e hp] at hval; exact absurd hval (by simp)
        · rw [hex.2 req e hproc] at hval; exact absurd hval (by simp)
      · rcases onPartResponse_spec _ _ _ _ _ hinner with
          ⟨_, _, hne⟩ | ⟨_, _, hna, _⟩ | ⟨ad, had, _, _, hsub2⟩
        · exact hne hm
        · exact hna rfl
        · simp only [Option.some.injEq] at had
          subst had
          rcases hsub2 with ⟨_, _, hnot⟩ | ⟨_, _, ⟨_, hok, _⟩ | ⟨_, hcu, _⟩⟩ |
            ⟨_, _, ⟨_, hok, _⟩ | ⟨_, hok, _⟩⟩
          · exact hnot hmem
          · rw [hr] at hok; exact absurd hok (by simp)
          · rw [hr] at hcu
            injection hcu with he
            subst he
            exact absurd hval (by simp [isValidation])
          · rw [hr] at hok; exact absurd hok (by simp)
          · rw [hr] at hok; exact absurd hok (by simp)
  | partResponse node resp =>
    simp only [applyFull, Option.map_eq_some'] at h
    obtain ⟨⟨r1, s1⟩, hp, hps⟩ := h
    simp only [Prod.mk.injEq] at hps
    obtain ⟨hr1, hs1, hlog⟩ := hps
    subst hr1; subst hs1
    rcases onPartResponse_spec _ _ _ _ _ hp with
      ⟨_, rfl, _⟩ | ⟨_, rfl, _, _⟩ | ⟨ad, had, _, _, hsub2⟩
    · exact ⟨rfl, hlog.symm⟩
    · exact ⟨rfl, hlog.symm⟩
    · rcases hsub2 with ⟨hre, hseq, _⟩ | ⟨_, _, ⟨_, hok, _⟩ | ⟨_, hcu, _⟩⟩ |
        ⟨_, _, ⟨_, hok, _⟩ | ⟨_, hok, _⟩⟩
      · exact ⟨hseq, hlog.symm⟩
      · rw [hr] at hok; exact absurd hok (by simp)
      · exfalso
        rw [hr] at hcu
        injection hcu with he
        subst he
        exact absurd hval (by simp [isValidation])
      · rw [hr] at hok; exact absurd hok (by simp)
      · rw [hr] at hok; exact absurd hok (by simp)
  | partRequest node req =>
    simp only [applyFull, Option.some.injEq] at h
    rcases onPartRequest_spec _ _ _ _ _ _ h with
      ⟨_, _, rfl, rfl⟩ | ⟨_, _, _, rfl, rfl⟩ | ⟨_, _, _, _, _, rfl, rfl⟩ |
      ⟨_, _, _, rfl, hsub⟩
    · exact ⟨rfl, rfl⟩
    · exact ⟨rfl, rfl⟩
    · exact ⟨rfl, rfl⟩
    · exfalso
      rcases hsub with ⟨e', hproc, hre, _⟩ | ⟨resp, _, ⟨e', hsend, hre, _⟩ | ⟨_, hok, _⟩⟩
      · rw [hr] at hre
        injection hre with he
        subst he
        rw [hex.2 req e hproc] at hval
        exact absurd hval (by simp)
      · rw [hr] at hre
        injection hre with he
        subst he
        rw [htr.2 node resp e hsend] at hval
        exact absurd hval (by simp)
      · rw [hr] at hok; exact absurd hok (by simp)
  | nodeTimeout node =>
    simp only [applyFull, Option.map_eq_some'] at h
    obtain ⟨⟨r1, s1⟩, hp, hps⟩ := h
    simp only [Prod.mk.injEq] at hps
    obtain ⟨hr1, hs1, hlog⟩ := hps
    subst hr1; subst hs1
    exfalso
    rcases onNodeTimeout_spec _ _ _ _ hp with
      ⟨_, ⟨_, hok, _⟩ | ⟨_, hnd, _⟩⟩ |
      ⟨_, ad, had, ⟨_, hok, _⟩ | ⟨_, _, _, hok, _⟩ | ⟨_, _, ad2, had2, hout⟩⟩
    · rw [hr] at hok; exact absurd hok (by simp)
    · rw [hr] at hnd
      injection hnd with he
      subst he
      exact absurd hval (by simp [isValidation])
    · rw [hr] at hok; exact absurd hok (by simp)
    · rw [hr] at hok; exact absurd hok (by simp)
    · rcases hout with ⟨_, hok, _⟩ | ⟨_, hnd, _⟩
      · rw [hr] at hok; exact absurd hok (by simp)
      · rw [hr] at hnd
        injection hnd with he
        subst he
        exact absurd hval (by simp [isValidation])
  | sessionTimeout =>
    simp only [applyFull, Option.some.injEq, Prod.mk.injEq] at h
    rw [hr] at h
    exact absurd h.1 (by simp)

/-- Witness for C7: a fresh slave rejecting a response with
InvalidMessage leaves the session untouched and sends nothing. -/
theorem c7_validation_untouched_witness :
    (ExecClean natExec ∧ TransClean okTransport ∧
     applyFull (JobSession.new (slaveMeta 0) natExec okTransport) (.partResponse 1 2) =
       some (.error .InvalidMessage, JobSession.new (slaveMeta 0) natExec okTransport, []) ∧
     isValidation .InvalidMessage = true ∧
     (JobSession.new (slaveMeta 0) natExec okTransport =
        JobSession.new (slaveMeta 0) natExec okTransport ∧
      ([] : List (Message Nat Nat)) = [])) :=
  ⟨⟨fun e h => by simp [natExec] at h, fun req e h => by simp [natExec] at h⟩,
   ⟨fun n req e h => by simp [okTransport] at h, fun n resp e h => by simp [okTransport] at h⟩,
   rfl, rfl,
   c7_validation_untouched (JobSession.new (slaveMeta 0) natExec okTransport)
     (.partResponse 1 2) (.error .InvalidMessage)
     (JobSession.new (slaveMeta 0) natExec okTransport) [] .InvalidMessage
     ⟨fun e h => by simp [JobSession.new, natExec] at h,
      fun req e h => by simp [JobSession.new, natExec] at h⟩
     ⟨fun n req e h => by simp [JobSession.new, okTransport] at h,
      fun n resp e h => by simp [JobSession.new, okTransport] at h⟩
     rfl rfl rfl⟩

/-- Key membership after removing a key: gone for the removed key,
unchanged for the others. -/
theorem mapContains_filter_ne (m : List (NodeId × Resp)) (k n : NodeId) :
    mapContains (m.filter (fun p => p.1 != k)) n =
      if n = k then false else mapContains m n := by
  induction m with
  | nil => simp [mapContains]
  | cons p t ih =>
    rw [List.filter_cons]
    by_cases hpk : p.1 = k
    · rw [if_neg (by simp [hpk])]
      rw [ih]
      by_cases hnk : n = k
      · simp [hnk]
      · rw [if_neg hnk, if_neg hnk]
        have hb : (p.1 == n) = false := by
          simp only [beq_eq_false_iff_ne, ne_eq, hpk]
          exact fun hh => hnk hh.symm
        simp [mapContains, hb]
    · rw [if_pos (by simp [hpk])]
      simp only [mapContains, List.any_cons]
      simp only [mapContains] at ih
      rw [ih]
      by_cases hnk : n = k
      · rw [if_pos hnk, if_pos hnk]
        have hb : (p.1 == n) = false := by
          simp only [beq_eq_false_iff_ne, ne_eq]
          intro hh
          exact hpk (hh.trans hnk)
        simp [hb]
      · rw [if_neg hnk, if_neg hnk]

/-- Key membership after `mapInsert`: present for the inserted key,
unchanged for the others. -/
theorem mapContains_mapInsert (m : List (NodeId × Resp)) (k n : NodeId) (v : Resp) :
    mapContains (mapInsert m k v) n = if n = k then true else mapContains m n := by
  have hfilter := mapContains_filter_ne m k n
  simp only [mapInsert, mapContains, List.any_cons] at hfilter ⊢
  rw [hfilter]
  by_cases hnk : n = k
  · simp [hnk]
  · have hb : (k == n) = false := by
      simp only [beq_eq_false_iff_ne, ne_eq]
      exact fun hh => hnk hh.symm
    simp [hnk, hb]

/-- Key membership after `mapRemove`. -/
theorem mapContains_mapRemove (m : List (NodeId × Resp)) (k n : NodeId) :
    mapContains (mapRemove m k) n = if n = k then false else mapContains m n :=
  mapContains_filter_ne m k n

/-- Inserting an absent key grows the map by exactly one entry. -/
theorem length_mapInsert (m : List (NodeId × Resp)) (k : NodeId) (v : Resp)
    (h : mapContains m k = false) :
    (mapInsert m k v).length = m.length + 1 := by
  have hself : m.filter (fun p => p.1 != k) = m := by
    apply List.filter_eq_self.mpr
    intro p hp
    simp only [mapContains, List.any_eq_false] at h
    simpa [bne] using h p hp
  simp [mapInsert, hself]

/-- Removing a present key from a nodup-keyed map shrinks it by exactly
one entry. -/
theorem length_mapRemove (m : List (NodeId × Resp)) (k : NodeId)
    (hn : (m.map Prod.fst).Nodup) (hc : mapContains m k = true) :
    m.length = (mapRemove m k).length + 1 := by
  induction m with
  | nil => simp [mapContains] at hc
  | cons p t ih =>
    simp only [List.map_cons, List.nodup_cons] at hn
    by_cases hpk : p.1 = k
    · have ht : t.filter (fun q => q.1 != k) = t := by
        apply List.filter_eq_self.mpr
        intro q hq
        have hqk : q.1 ≠ k := by
          intro hqk
          apply hn.1
          rw [hpk, ← hqk]
          exact List.mem_map_of_mem Prod.fst hq
        simpa [bne] using hqk
      rw [mapRemove, List.filter_cons, if_neg (by simp [hpk]), ht]
      simp
    · have hc2 : mapContains t k = true := by
        simp only [mapContains, List.any_cons] at hc ⊢
        simpa [hpk] using hc
      have ihh := ih hn.2 hc2
      rw [mapRemove, List.filter_cons, if_pos (by simp [hpk])]
      simp only [mapRemove] at ihh
      simp only [List.length_cons]
      omega

/-- The keys of a filtered map stay nodup. -/
theorem nodup_keys_filter (m : List (NodeId × Resp)) (p : NodeId × Resp → Bool)
    (hn : (m.map Prod.fst).Nodup) : ((m.filter p).map Prod.fst).Nodup :=
  ((m.filter_sublist).map Prod.fst).nodup hn

/-- The keys after `mapInsert` stay nodup. -/
theorem nodup_keys_mapInsert (m : List (NodeId × Resp)) (k : NodeId) (v : Resp)
    (hn : (m.map Prod.fst).Nodup) :
    ((mapInsert m k v).map Prod.fst).Nodup := by
  simp only [mapInsert, List.map_cons, List.nodup_cons]
  refine ⟨?_, nodup_keys_filter m _ hn⟩
  intro hk
  obtain ⟨q, hq, hq1⟩ := List.mem_map.mp hk
  have := List.of_mem_filter hq
  rw [hq1] at this
  simp at this

/-- Bookkeeping well-formedness: a node awaiting a response has no
accepted response recorded, and the response keys are unique. -/
def adInv (ad : ActiveJobSessionData Resp) : Prop :=
  (∀ n ∈ ad.requests, mapContains ad.responses n = false) ∧
  (ad.responses.map Prod.fst).Nodup

/-- Session invariant: well-formed bookkeeping whenever present, no
bookkeeping while Inactive, bookkeeping present on a Finished master,
and in a Finished session the outstanding plus accepted node count is
at least threshold + 1. -/
def SessionInv (s : JobSession Req Resp JResp) : Prop :=
  (∀ ad, s.data.activeData = some ad →
    adInv ad ∧ (s.data.state = .Finished →
      s.meta.threshold + 1 ≤ ad.requests.card + ad.responses.length)) ∧
  (s.data.state = .Inactive → s.data.activeData = none) ∧
  (s.meta.self_node_id = s.meta.master_node_id → s.data.state = .Finished →
    s.data.activeData ≠ none)

/-- The session invariant is preserved by `on_partial_response`. -/
theorem inv_onPartResponse (s : JobSession Req Resp JResp) (node : NodeId) (resp : Resp)
    (r : Except Error Unit) (s' : JobSession Req Resp JResp)
    (hinv : SessionInv s) (h : onPartResponse s node resp = some (r, s')) :
    SessionInv s' ∧ s'.meta = s.meta := by
  rcases onPartResponse_spec _ _ _ _ _ h with
    ⟨_, rfl, _⟩ | ⟨_, rfl, _, _⟩ | ⟨ad, had, hm, hst, hcase⟩
  · exact ⟨hinv, rfl⟩
  · exact ⟨hinv, rfl⟩
  · obtain ⟨hadInv, hfin⟩ := hinv.1 ad had
    have hstInactive : s.data.state ≠ .Inactive := by
      rcases hst with h' | h' <;> rw [h'] <;> simp
    rcases hcase with ⟨_, rfl, _⟩ | ⟨hnode, hchk, ⟨hq, _, rfl⟩ | ⟨hq, _, rfl⟩⟩ |
      ⟨hnode, hchk, ⟨hq, _, rfl⟩ | ⟨hq, _, rfl⟩⟩
    · exact ⟨hinv, rfl⟩
    · refine ⟨⟨?_, ?_, ?_⟩, rfl⟩
      · intro ad' had'
        simp only [Option.some.injEq] at had'
        subst had'
        exact ⟨⟨fun n hn => hadInv.1 n (Finset.mem_of_mem_erase hn), hadInv.2⟩,
          fun _ => hq⟩
      · intro hia
        exact absurd hia hstInactive
      · intro _ _
        simp
    · refine ⟨⟨?_, ?_, ?_⟩, rfl⟩
      · intro ad' had'
        simp only [Option.some.injEq] at had'
        subst had'
        exact ⟨⟨fun n hn => hadInv.1 n (Finset.mem_of_mem_erase hn), hadInv.2⟩,
          fun hf => absurd hf (by simp)⟩
      · intro hia
        exact absurd hia (by simp)
      · intro _ hf
        exact absurd hf (by simp)
    · have hcontains : mapContains ad.responses node = false := hadInv.1 node hnode
      refine ⟨⟨?_, ?_, ?_⟩, rfl⟩
      · intro ad' had'
        simp only [Option.some.injEq] at had'
        subst had'
        refine ⟨⟨?_, nodup_keys_mapInsert _ _ _ hadInv.2⟩, fun hf => ?_⟩
        · intro n hn
          obtain ⟨hne, hmem⟩ := Finset.mem_erase.mp hn
          rw [mapContains_mapInsert, if_neg hne]
          exact hadInv.1 n hmem
        · have hbound := hfin hf
          have hpos : 0 < ad.requests.card := Finset.card_pos.mpr ⟨node, hnode⟩
          dsimp only
          rw [length_mapInsert _ _ _ hcontains, Finset.card_erase_of_mem hnode]
          omega
      · intro hia
        exact absurd hia hstInactive
      · intro _ _
        simp
    · have hcontains : mapContains ad.responses node = false := hadInv.1 node hnode
      refine ⟨⟨?_, ?_, ?_⟩, rfl⟩
      · intro ad' had'
        simp only [Option.some.injEq] at had'
        subst had'
        refine ⟨⟨?_, nodup_keys_mapInsert _ _ _ hadInv.2⟩, fun _ => ?_⟩
        · intro n hn
          obtain ⟨hne, hmem⟩ := Finset.mem_erase.mp hn
          rw [mapContains_mapInsert, if_neg hne]
          exact hadInv.1 n hmem
        · dsimp only
          omega
      · intro hia
        exact absurd hia (by simp)
      · intro _ _
        simp

/-- The session invariant is preserved by `on_node_timeout`. -/
theorem inv_onNodeTimeout (s : JobSession Req Resp JResp) (node : NodeId)
    (r : Except Error Unit) (s' : JobSession Req Resp JResp)
    (hinv : SessionInv s) (h : onNodeTimeout s node = some (r, s')) :
    SessionInv s' ∧ s'.meta = s.meta := by
  rcases onNodeTimeout_spec _ _ _ _ h with
    ⟨hs, ⟨_, _, rfl⟩ | ⟨_, _, rfl⟩⟩ |
    ⟨hm, ad, had, ⟨_, _, rfl⟩ | ⟨_, _, _, _, rfl⟩ | ⟨_, hin, ad2, had2, hout⟩⟩
  · exact ⟨hinv, rfl⟩
  · refine ⟨⟨?_, ?_, ?_⟩, rfl⟩
    · intro ad' had'
      exact ⟨(hinv.1 ad' had').1, fun hf => absurd hf (by simp)⟩
    · intro hia
      exact absurd hia (by simp)
    · intro _ hf
      exact absurd hf (by simp)
  · exact ⟨hinv, rfl⟩
  · exact ⟨hinv, rfl⟩
  · obtain ⟨hadInv, hfin⟩ := hinv.1 ad had
    have hstInactive : s.data.state ≠ .Inactive := by
      intro hia
      rw [hinv.2.1 hia] at had
      exact absurd had (by simp)
    have hadInv2 : adInv ad2 := by
      subst had2
      by_cases hreq : node ∈ ad.requests
      · rw [if_pos hreq]
        exact ⟨fun n hn => hadInv.1 n (Finset.mem_of_mem_erase hn), hadInv.2⟩
      · rw [if_neg hreq]
        refine ⟨fun n hn => ?_, nodup_keys_filter _ _ hadInv.2⟩
        rw [mapContains_mapRemove]
        by_cases hnn : n = node
        · rw [if_pos hnn]
        · rw [if_neg hnn]
          exact hadInv.1 n hn
    rcases hout with ⟨hq, _, rfl⟩ | ⟨hq, _, rfl⟩
    · refine ⟨⟨?_, ?_, ?_⟩, rfl⟩
      · intro ad' had'
        simp only [Option.some.injEq] at had'
        subst had'
        exact ⟨hadInv2, fun _ => hq⟩
      · intro hia
        exact absurd hia hstInactive
      · intro _ _
        simp
    · refine ⟨⟨?_, ?_, ?_⟩, rfl⟩
      · intro ad' had'
        simp only [Option.some.injEq] at had'
        subst had'
        exact ⟨hadInv2, fun hf => absurd hf (by simp)⟩
      · intro hia
        exact absurd hia (by simp)
      · intro _ hf
        exact absurd hf (by simp)

/-- The session invariant is preserved by `on_partial_request`. -/
theorem inv_onPartRequest (s : JobSession Req Resp JResp) (node : NodeId) (req : Req)
    (r : Except Error Unit) (s' : JobSession Req Resp JResp)
    (log : List (Message Req Resp)) (hinv : SessionInv s)
    (h : onPartRequest s node req = (r, s', log)) :
    SessionInv s' ∧ s'.meta = s.meta := by
  rcases onPartRequest_spec _ _ _ _ _ _ h with
    ⟨_, _, rfl, _⟩ | ⟨_, _, _, rfl, _⟩ | ⟨_, _, _, _, _, rfl, _⟩ | ⟨_, hm, hst, rfl, _⟩
  · exact ⟨hinv, rfl⟩
  · exact ⟨hinv, rfl⟩
  · exact ⟨hinv, rfl⟩
  · refine ⟨⟨?_, ?_, ?_⟩, rfl⟩
    · intro ad had
      refine ⟨(hinv.1 ad had).1, fun _ => ?_⟩
      rcases hst with hia | hf
      · rw [hinv.2.1 hia] at had
        exact absurd had (by simp)
      · exact (hinv.1 ad had).2 hf
    · intro hia
      exact absurd hia (by simp)
    · intro hmm _
      exact absurd hmm hm

/-- The session invariant is preserved by `initialize` (including the
synchronous self-response path). -/
theorem inv_initJob (s : JobSession Req Resp JResp) (nodes : Finset NodeId)
    (r : Except Error Unit) (s' : JobSession Req Resp JResp)
    (log : List (Message Req Resp)) (hinv : SessionInv s)
    (h : initJob s nodes = some (r, s', log)) :
    SessionInv s' ∧ s'.meta = s.meta := by
  obtain ⟨hm, hc, hcases⟩ := initJob_spec _ _ _ _ _ h
  have hinv1 : SessionInv
      ({ s with data := ⟨.Active, some ⟨nodes, ∅, []⟩⟩ } : JobSession Req Resp JResp) := by
    refine ⟨?_, ?_, ?_⟩
    · intro ad had
      simp only [Option.some.injEq] at had
      subst had
      exact ⟨⟨fun n _ => rfl, by simp⟩, fun hf => absurd hf (by simp)⟩
    · intro hia
      exact absurd hia (by simp)
    · intro _ hf
      exact absurd hf (by simp)
  rcases hcases with ⟨_, _, rfl, _⟩ |
    ⟨hin, ⟨_, _, rfl, _⟩ | ⟨⟨rfl, _⟩ | ⟨resp, hmem, hinner⟩⟩⟩
  · exact ⟨hinv, rfl⟩
  · exact ⟨hinv, rfl⟩
  · exact ⟨hinv1, rfl⟩
  · exact inv_onPartResponse
      ({ s with data := ⟨.Active, some ⟨nodes, ∅, []⟩⟩ }) _ _ _ _ hinv1 hinner

/-- The session invariant is preserved by any single operation, which
also never changes the session metadata. -/
theorem inv_applyOp (s : JobSession Req Resp JResp) (op : Op Req Resp)
    (s' : JobSession Req Resp JResp) (hinv : SessionInv s)
    (h : applyOp s op = some s') : SessionInv s' ∧ s'.meta = s.meta := by
  cases op with
  | initNodes nodes =>
    simp only [applyOp, applyFull, Option.map_eq_some'] at h
    obtain ⟨⟨r, s1, log⟩, hfull, hps⟩ := h
    subst hps
    exact inv_initJob _ _ _ _ _ hinv hfull
  | partResponse node resp =>
    simp only [applyOp, applyFull, Option.map_map, Option.map_eq_some'] at h
    obtain ⟨⟨r, s1⟩, hp, hps⟩ := h
    simp only [Function.comp] at hps
    subst hps
    exact inv_onPartResponse _ _ _ _ _ hinv hp
  | partRequest node req =>
    simp only [applyOp, applyFull, Option.map_some', Option.some.injEq] at h
    cases hfull : onPartRequest s node req with
    | mk r rest =>
      cases rest with
      | mk s1 log =>
        rw [hfull] at h
        subst h
        exact inv_onPartRequest _ _ _ _ _ _ hinv hfull
  | nodeTimeout node =>
    simp only [applyOp, applyFull, Option.map_map, Option.map_eq_some'] at h
    obtain ⟨⟨r, s1⟩, hp, hps⟩ := h
    simp only [Function.comp] at hps
    subst hps
    exact inv_onNodeTimeout _ _ _ _ hinv hp
  | sessionTimeout =>
    simp only [applyOp, applyFull, Option.map_some', Option.some.injEq] at h
    subst h
    refine ⟨⟨?_, ?_, ?_⟩, rfl⟩
    · intro ad had
      exact ⟨(hinv.1 ad had).1, fun hf => absurd hf (by simp [onSessionTimeout])⟩
    · intro hia
      exact absurd hia (by simp [onSessionTimeout])
    · intro _ hf
      exact absurd hf (by simp [onSessionTimeout])

/-- The session invariant is preserved along any run, and the metadata
never changes. -/
theorem runOps_inv (ops : List (Op Req Resp)) :
    ∀ s0 sF : JobSession Req Resp JResp,
      runOps s0 ops = some sF → SessionInv s0 → SessionInv sF ∧ sF.meta = s0.meta := by
  induction ops with
  | nil =>
    intro s0 sF h hinv
    simp only [runOps, Option.some.injEq] at h
    subst h
    exact ⟨hinv, rfl⟩
  | cons op rest ih =>
    intro s0 sF h hinv
    simp only [runOps] at h
    cases hstep : applyOp s0 op with
    | none => rw [hstep] at h; exact absurd h (by simp)
    | some s1 =>
      rw [hstep] at h
      obtain ⟨hinv1, hmeta1⟩ := inv_applyOp s0 op s1 hinv hstep
      obtain ⟨hinvF, hmetaF⟩ := ih s1 sF h hinv1
      exact ⟨hinvF, hmetaF.trans hmeta1⟩

/-- C1 (amended): in every state of a master session reachable by any
run of operations, whenever state() = Finished the bookkeeping exists
and the count of outstanding requests plus accepted responses is at
least threshold + 1.  (The responses map alone can fall below
threshold + 1 after `on_node_timeout` discards an accepted response
while the state stays Finished, as the counterexample shows, so
`result()` may aggregate over fewer than threshold + 1 responses.) -/
theorem c1_finished_quorum_amended (meta : SessionMeta)
    (ex : JobExecutor Req Resp JResp) (tr : JobTransport Req Resp)
    (ops : List (Op Req Resp)) (s : JobSession Req Resp JResp)
    (hm : meta.self_node_id = meta.master_node_id)
    (h : runOps (JobSession.new meta ex tr) ops = some s)
    (hf : s.data.state = .Finished) :
    ∃ ad, s.data.activeData = some ad ∧
      s.meta.threshold + 1 ≤ ad.requests.card + ad.responses.length := by
  have hinv0 : SessionInv (JobSession.new meta ex tr) := by
    refine ⟨?_, fun _ => rfl, fun _ hfin => absurd hfin (by simp [JobSession.new])⟩
    intro ad had
    exact absurd had (by simp [JobSession.new])
  obtain ⟨hinv, hmeta⟩ := runOps_inv ops _ s h hinv0
  have hne := hinv.2.2 (by rw [hmeta]; exact hm) hf
  cases had : s.data.activeData with
  | none => exact absurd had hne
  | some ad => exact ⟨ad, rfl, (hinv.1 ad had).2 hf⟩

/-- Final session of the C1 witness run (threshold 0, node set {1}). -/
def c1witSession : JobSession Nat Nat Nat :=
  ⟨masterMeta 0, natExec, okTransport,
    ⟨.Finished, some ⟨({1} : Finset NodeId).erase 1, ∅, [(1, 4)]⟩⟩⟩

/-- Witness for C1 (amended) on a concrete finished run. -/
theorem c1_finished_quorum_amended_witness :
    ((masterMeta 0).self_node_id = (masterMeta 0).master_node_id ∧
     runOps (JobSession.new (masterMeta 0) natExec okTransport) [.initNodes {1}] =
       some c1witSession ∧
     c1witSession.data.state = .Finished ∧
     ∃ ad, c1witSession.data.activeData = some ad ∧
       c1witSession.meta.threshold + 1 ≤ ad.requests.card + ad.responses.length) :=
  ⟨rfl, rfl, rfl,
    c1_finished_quorum_amended (masterMeta 0) natExec okTransport [.initNodes {1}]
      c1witSession rfl rfl rfl⟩

end JobSessions
